import Mathlib

/-!
Verification of the centipede GitHub-scraper repository: a shallow
embedding of its schema generator (`src/utils/db.py`), profile assembly
(`src/utils/github.py`), search queries (`src/utils/search.py`) and the
dedup/persist workflow (`src/main.py`), together with theorems settling
the specification claims.
-/

namespace Centipede

/-! ### Character-list string utilities

Python's `str.strip`, `str.split`, `str.startswith` are modelled on
character lists so that every definition evaluates by kernel
reduction. -/

/-- Python `str.strip()`: remove leading and trailing whitespace. -/
def trimChars (l : List Char) : List Char :=
  ((l.dropWhile Char.isWhitespace).reverse.dropWhile Char.isWhitespace).reverse

/-- Python `str.split(sep)` for a one-character separator: split at every
occurrence, keeping empty parts (`"".split(sep) == [""]`). -/
def splitOnChar (sep : Char) : List Char → List (List Char)
  | [] => [[]]
  | c :: t =>
    let r := splitOnChar sep t
    if c = sep then [] :: r
    else
      match r with
      | h :: rest => (c :: h) :: rest
      | [] => [[c]]

/-- Python `str.startswith(p)`. -/
def isPrefixOfCh : List Char → List Char → Bool
  | [], _ => true
  | _ :: _, [] => false
  | a :: as, b :: bs => a = b && isPrefixOfCh as bs

/-! ### Python type annotations, as the schema generator sees them

`pydantic_to_duckdb_type` in `src/utils/db.py` inspects a Python type
annotation: `Optional[T]`/`Union[...]` has `__origin__ = Union` and the
code takes the first type argument; `List[T]` has `__origin__ = list`;
plain classes have no `__origin__`.  Python's `typing` flattens
`Optional[Union[HttpUrl, str]]` to `Union[HttpUrl, str, NoneType]`. -/

inductive PyType where
  | str
  | int
  | bool
  | datetime
  | httpUrl
  | noneType
  | list (elt : PyType)
  | union (args : List PyType)

/-- Embeds `pydantic_to_duckdb_type` (`src/utils/db.py` lines 11-29):
unwrap one level of `Union` to its first argument, then map the base type
(`list` origin to VARCHAR[]); anything unmapped — including the `HttpUrl`
class, since the dict key `'HttpUrl'` is a string, not the class — falls
back to VARCHAR. -/
def pydantic_to_duckdb_type (python_type : PyType) : String :=
  let t := match python_type with
    | .union (a :: _) => a
    | other => other
  match t with
  | .str => "VARCHAR"
  | .int => "INTEGER"
  | .bool => "BOOLEAN"
  | .datetime => "TIMESTAMP"
  | .list _ => "VARCHAR[]"
  | _ => "VARCHAR"

/-- One entry of a Pydantic model's `model_fields`: the field name, its
annotation, and the value the *method* `FieldInfo.is_required()` would
return if it were called. -/
structure ModelField where
  name : String
  annotation : PyType
  required : Bool

/-- In `generate_create_table_sql` (`src/utils/db.py` line 41) the source
reads `field.is_required` without calling it; in Pydantic v2 `is_required`
is a method, so the attribute access yields a bound-method object, which
is truthy for every field.  This embeds the truthiness of that accessed
value. -/
def field_is_required_attr_truthy (_ : ModelField) : Bool := true

/-- Single quote character, for building SQL text. -/
def sq : String := "\x27"

/-- Embeds `generate_create_table_sql` (`src/utils/db.py` lines 32-59):
id column defaulting to the next sequence value, one column per model
field, a `fetched_at` column defaulting to the current timestamp, and
`CREATE SEQUENCE IF NOT EXISTS` / `CREATE TABLE IF NOT EXISTS`
statements. -/
def generate_create_table_sql (model : List ModelField) (table_name : String) : String :=
  let idField := "id BIGINT PRIMARY KEY DEFAULT nextval(" ++ sq ++ table_name ++ "_id_seq" ++ sq ++ ")"
  let fieldCols := model.map (fun field =>
    let sql_type := pydantic_to_duckdb_type field.annotation
    let nullable := field_is_required_attr_truthy field
    field.name ++ " " ++ sql_type ++ (if nullable then "" else " NULL"))
  let fields := idField :: fieldCols ++ ["fetched_at TIMESTAMP DEFAULT CURRENT_TIMESTAMP"]
  let create_sequence :=
    "\n        CREATE SEQUENCE IF NOT EXISTS " ++ table_name ++ "_id_seq;\n    "
  let create_table :=
    "\n        CREATE TABLE IF NOT EXISTS " ++ table_name ++ " (\n            "
      ++ String.intercalate "," fields ++ "\n        );\n    "
  create_sequence ++ create_table

/-- The `GitHubProfile` Pydantic model (`src/utils/github.py` lines
35-66), as `model_fields` presents it: declaration order, annotations,
and whether each field is required (fields with a default — `None` or
via `Field` — are not). -/
def githubProfileFields : List ModelField :=
  [ ⟨"login", .str, true⟩,
    ⟨"name", .union [.str, .noneType], false⟩,
    ⟨"bio", .union [.str, .noneType], false⟩,
    ⟨"location", .union [.str, .noneType], false⟩,
    ⟨"company", .union [.str, .noneType], false⟩,
    ⟨"blog", .union [.httpUrl, .str, .noneType], false⟩,
    ⟨"twitter", .union [.str, .noneType], false⟩,
    ⟨"email", .union [.str, .noneType], false⟩,
    ⟨"public_repos", .int, true⟩,
    ⟨"followers", .int, true⟩,
    ⟨"following", .int, true⟩,
    ⟨"created_at", .datetime, true⟩,
    ⟨"languages", .list .str, true⟩,
    ⟨"hireable", .union [.bool, .noneType], false⟩,
    ⟨"html_url", .httpUrl, true⟩,
    ⟨"repos_url", .httpUrl, true⟩,
    ⟨"organizations_url", .httpUrl, true⟩ ]

/-! ### Profile assembly (`src/utils/github.py`) -/

/-- One element of the `GET /users/{username}/repos` response, reduced to
the only key `get_github_profile` reads: `language`, possibly null. -/
structure RawRepo where
  language : Option String
  deriving DecidableEq, Repr

/-- The `GET /users/{username}` response, reduced to the keys
`get_github_profile` reads via `profile.get(...)`; a missing key reads as
`None`, i.e. `none` here. -/
structure RawUser where
  login : Option String := none
  name : Option String := none
  bio : Option String := none
  location : Option String := none
  company : Option String := none
  blog : Option String := none
  twitter_username : Option String := none
  email : Option String := none
  public_repos : Option Int := none
  followers : Option Int := none
  following : Option Int := none
  created_at : Option String := none
  hireable : Option Bool := none
  html_url : Option String := none
  repos_url : Option String := none
  organizations_url : Option String := none
  deriving DecidableEq, Repr

/-- Embeds the language-derivation loop of `get_github_profile`
(`src/utils/github.py` lines 163-166): `languages = set()`, then for each
repo `if repo['language']: languages.add(repo['language'])`.  Python
truthiness makes the guard skip both `None` and the empty string. -/
def derive_languages_step (languages : Finset String) (repo : RawRepo) : Finset String :=
  match repo.language with
  | some l => if l ≠ "" then insert l languages else languages
  | none => languages

def derive_languages (repos : List RawRepo) : Finset String :=
  repos.foldl derive_languages_step ∅

/-- Embeds `profile.get('blog') or None` (`src/utils/github.py` line
178): Python `or` returns `None` when the left operand is falsy, and the
empty string is falsy. -/
def blog_or_none (blog : Option String) : Option String :=
  match blog with
  | some s => if s = "" then none else some s
  | none => none

/-- The `profile_data` dict built by `get_github_profile`
(`src/utils/github.py` lines 169-196), before Pydantic validation. -/
structure ProfileData where
  login : Option String
  name : Option String
  bio : Option String
  location : Option String
  company : Option String
  blog : Option String
  twitter_username : Option String
  email : Option String
  public_repos : Int
  followers : Int
  following : Int
  created_at : Option String
  languages : Finset String
  hireable : Option Bool
  html_url : Option String
  repos_url : Option String
  organizations_url : Option String
  deriving DecidableEq

/-- Embeds the assembly of `profile_data` in `get_github_profile`
(`src/utils/github.py` lines 158-198) from the user response and the
repo-list response: blog normalized by `or None`, the stats defaulting to
0 when absent (`profile.get('public_repos', 0)` etc.), languages from
`derive_languages`.  (`list(languages)` forgets the set's iteration
order; the set itself is kept here.) -/
def get_github_profile (profile : RawUser) (repos : List RawRepo) : ProfileData :=
  { login := profile.login
    name := profile.name
    bio := profile.bio
    location := profile.location
    company := profile.company
    blog := blog_or_none profile.blog
    twitter_username := profile.twitter_username
    email := profile.email
    public_repos := profile.public_repos.getD 0
    followers := profile.followers.getD 0
    following := profile.following.getD 0
    created_at := profile.created_at
    languages := derive_languages repos
    hireable := profile.hireable
    html_url := profile.html_url
    repos_url := profile.repos_url
    organizations_url := profile.organizations_url }

/-! ### Target-list reading (`src/utils/github.py` lines 69-80) -/

/-- The guard `if line and not line.startswith('#')` of `read_repos_file`
(negated): a stripped line is skipped when it is empty or starts with
`#`. -/
def lineSkipped (line : List Char) : Bool :=
  line.isEmpty || line.headD ' ' = '#'

/-- Embeds `read_repos_file` on the lines of `repos.txt`: strip each
line, skip empty lines and lines starting with `#`, unpack
`line.split('/')` into `(org, repo)` — which raises `ValueError`
(modelled as `Except.error`) when the split does not yield exactly two
parts, in particular when the line lacks a `/`. -/
def read_repos_file : List String → Except String (List (String × String))
  | [] => .ok []
  | rawLine :: rest =>
    let line := trimChars rawLine.data
    if lineSkipped line then
      read_repos_file rest
    else
      match splitOnChar '/' line with
      | [org, repo] =>
        (read_repos_file rest).map (fun pairs => (String.mk org, String.mk repo) :: pairs)
      | _ => .error (String.mk line)

/-! ### The store (`src/utils/db.py`): table state, insert, search -/

/-- A validated `GitHubProfile` record, as persisted: the seventeen model
fields of `githubProfileFields`, URL values already serialized to plain
strings (`model_to_dict`), `languages` as the set Python's
`list(languages)` enumerates. -/
structure Profile where
  login : String
  name : Option String := none
  bio : Option String := none
  location : Option String := none
  company : Option String := none
  blog : Option String := none
  twitter : Option String := none
  email : Option String := none
  public_repos : Int := 0
  followers : Int := 0
  following : Int := 0
  created_at : String := ""
  languages : Finset String := ∅
  hireable : Option Bool := none
  html_url : String := ""
  repos_url : String := ""
  organizations_url : String := ""
  deriving DecidableEq

/-- One row of the `github_profiles` table.  The `id` and `fetched_at`
columns are nullable at the SQL level (a value is only present when the
INSERT supplies one or a schema default fires), hence `Option`. -/
structure TableRow where
  id : Option Nat
  fetched_at : Option Nat
  data : Profile
  deriving DecidableEq

/-- The `github_profiles` table plus its id sequence: `next_id` is the
value `nextval('github_profiles_id_seq')` yields next. -/
structure TableState where
  next_id : Nat
  rows : List TableRow
  deriving DecidableEq

/-- Embeds the column list of the INSERT in `save_profile_to_db`
(`src/utils/db.py` lines 86-89): all keys of the profile dict — the model
field names — with `id` and `fetched_at` excluded. -/
def insert_fields : List String :=
  (githubProfileFields.map (fun f => f.name)).filter
    (fun f => !(f == "id" || f == "fetched_at"))

/-- DuckDB semantics of an INSERT into `github_profiles` with column list
`cols`: a column absent from `cols` receives its schema default —
`id` defaults to `nextval('github_profiles_id_seq')` (advancing the
sequence), `fetched_at` to `CURRENT_TIMESTAMP` (`now`); a column present
in `cols` takes the supplied value. -/
def insert_into_github_profiles (st : TableState) (cols : List String)
    (suppliedId : Option Nat) (suppliedFetchedAt : Option Nat)
    (p : Profile) (now : Nat) : TableState :=
  let idVal := if cols.contains "id" then suppliedId else some st.next_id
  let nextSeq := if cols.contains "id" then st.next_id else st.next_id + 1
  let faVal := if cols.contains "fetched_at" then suppliedFetchedAt else some now
  { next_id := nextSeq, rows := st.rows ++ [⟨idVal, faVal, p⟩] }

/-- Embeds `save_profile_to_db` (`src/utils/db.py` lines 83-101): a
parameterized INSERT naming exactly the `insert_fields` columns, so `id`
and `fetched_at` are left to their schema defaults. -/
def save_profile_to_db (st : TableState) (p : Profile) (now : Nat) : TableState :=
  insert_into_github_profiles st insert_fields none none p now

/-! ### Store initialization (`src/utils/db.py` lines 74-80 and 114-118) -/

/-- Name of the object a `CREATE ...` statement creates: the token after
the create clause, up to whitespace or an opening parenthesis. -/
def createdObjectName (s : List Char) : String :=
  String.mk (s.takeWhile (fun c => !c.isWhitespace && c != '('))

/-- DuckDB semantics of executing one DDL statement against the list of
existing objects: `CREATE SEQUENCE IF NOT EXISTS` and `CREATE TABLE IF
NOT EXISTS` create the object only when absent and never error; a plain
`CREATE TABLE` errors when the object already exists. -/
def execCreate (objects : List String) (statement : List Char) : Except String (List String) :=
  let t := trimChars statement
  if isPrefixOfCh "CREATE SEQUENCE IF NOT EXISTS ".data t then
    let nm := createdObjectName (t.drop 30)
    .ok (if objects.contains nm then objects else objects ++ [nm])
  else if isPrefixOfCh "CREATE TABLE IF NOT EXISTS ".data t then
    let nm := createdObjectName (t.drop 27)
    .ok (if objects.contains nm then objects else objects ++ [nm])
  else if isPrefixOfCh "CREATE TABLE ".data t then
    let nm := createdObjectName (t.drop 13)
    if objects.contains nm then .error (nm ++ " already exists")
    else .ok (objects ++ [nm])
  else .error ("unsupported statement: " ++ String.mk t)

/-- Embeds `init_database` (`src/utils/db.py` lines 74-80): split the
generated DDL on `;`, execute every statement whose stripped text is
non-empty. -/
def init_database (objects : List String) : Except String (List String) :=
  let sql := generate_create_table_sql githubProfileFields "github_profiles"
  (splitOnChar ';' sql.data).foldlM (fun objs statement =>
    if (trimChars statement).isEmpty then .ok objs else execCreate objs statement) objects

/-- The backing file plus the database objects inside it. -/
structure StoreState where
  fileExists : Bool
  objects : List String
  deriving DecidableEq

/-- Embeds `init_database_if_needed` (`src/utils/db.py` lines 114-118):
only when no file exists at the configured path, connect (which creates
the file) and run `init_database`. -/
def init_database_if_needed (s : StoreState) : Except String StoreState :=
  if s.fileExists then .ok s
  else (init_database s.objects).map (fun objs => ⟨true, objs⟩)

/-! ### SQL LIKE and the search queries (`src/utils/search.py`) -/

/-- SQL `ILIKE` pattern matching, pattern against subject: `%` matches
any (possibly empty) character sequence, `_` matches exactly one
character, any other pattern character matches case-insensitively.  This
is the DuckDB semantics of `subject ILIKE pattern` for non-null
subjects. -/
def likeMatch : List Char → List Char → Bool
  | [], s => s.isEmpty
  | p :: ps, s =>
    if p = '%' then
      s.tails.any (fun t => likeMatch ps t)
    else
      match s with
      | [] => false
      | c :: t =>
        if p = '_' then likeMatch ps t
        else (p.toLower == c.toLower) && likeMatch ps t

/-- `subject ILIKE pattern` on strings. -/
def sql_ilike (subject pattern : String) : Bool :=
  likeMatch pattern.data subject.data

/-- The WHERE clause of `find_by_location` (`src/utils/search.py` lines
49-56): `location ILIKE '%term%'`.  A null `location` makes the predicate
NULL, which the WHERE clause rejects. -/
def locationMatches (term : String) (r : TableRow) : Bool :=
  match r.data.location with
  | none => false
  | some loc => sql_ilike loc ("%" ++ term ++ "%")

/-- Embeds `find_by_location` (`src/utils/search.py` lines 39-56): rows
satisfying `location ILIKE '%term%'`, ordered by `followers` descending.
(The SELECT projects name, login, location, followers, languages; the
rows returned here carry all columns, the projection is presentational.) -/
def find_by_location (st : TableState) (term : String) : List TableRow :=
  (st.rows.filter (locationMatches term)).mergeSort
    (fun a b => decide (b.data.followers ≤ a.data.followers))

/-- Embeds `get_all_users` (`src/utils/search.py` lines 23-36): the set
of all `login` values in the table (the ORDER BY is forgotten by the set
comprehension). -/
def get_all_users (st : TableState) : Finset String :=
  st.rows.foldr (fun r acc => insert r.data.login acc) ∅

/-! ### The fetch workflow (`src/main.py`) -/

/-- Embeds the dedup step of `main` (`src/main.py` lines 64-74):
`new_usernames = set()` followed by
`new_usernames.update(repo_usernames - existing_usernames)`, i.e. the
Python set difference discovered minus existing. -/
def compute_new_usernames (existing_usernames repo_usernames : Finset String) :
    Finset String :=
  (∅ : Finset String) ∪ (repo_usernames \ existing_usernames)

/-- Embeds the persist loop of `main` (`src/main.py` lines 89-103): for
each element of `profiles` (one per attempted username, `none` where
`get_profile_remote` returned `None`), a truthy profile is saved and
`successful` incremented; the loop never aborts.  Returns the final table
state and the `successful` count the run reports. -/
def save_batch (profiles : List (Option Profile)) (st : TableState) (now : Nat) :
    TableState × Nat :=
  profiles.foldl (fun acc profile =>
    match profile with
    | some p => (save_profile_to_db acc.1 p now, acc.2 + 1)
    | none => acc) (st, 0)

/-! ## Theorems settling the claims -/

set_option maxRecDepth 40000

/-- C1: the claim says `generate_create_table_sql` gives every required
model field a NOT NULL column.  It does not: in the source
`nullable = field.is_required` reads the Pydantic v2 method without
calling it, the bound method is truthy for every field, so the
`' NULL'`/`''` suffix choice always takes the truthy branch and the
emitted DDL contains no NOT NULL at all — the required `login` field's
column is the bare nullable `login VARCHAR`. -/
theorem c1_generate_create_table_sql_no_not_null :
    (∃ f ∈ githubProfileFields, f.name = "login" ∧ f.required = true) ∧
    "login VARCHAR,".data <:+:
      (generate_create_table_sql githubProfileFields "github_profiles").data ∧
    ¬ ("NOT NULL".data <:+:
      (generate_create_table_sql githubProfileFields "github_profiles").data) := by
  refine ⟨⟨⟨"login", .str, true⟩, ?_, rfl, rfl⟩, by decide, by decide⟩
  simp [githubProfileFields]

/-- C2: the set of logins the workflow proceeds to fetch is exactly the
set difference discovered minus existing; with existing `{a,b}` and
discovered `{b,c,d}` the new set is exactly `{c,d}`. -/
theorem c2_compute_new_usernames_diff :
    (∀ (existing discovered : Finset String) (x : String),
        x ∈ compute_new_usernames existing discovered ↔
          x ∈ discovered ∧ x ∉ existing) ∧
    compute_new_usernames {"a", "b"} {"b", "c", "d"} = {"c", "d"} := by
  refine ⟨?_, by decide⟩
  intro existing discovered x
  simp [compute_new_usernames]

/-- C4: a raw user record whose `blog` field is the empty string
assembles to a profile whose `blog` value is `None`, via the
`profile.get('blog') or None` normalization. -/
theorem c4_blog_empty_string_to_none (raw : RawUser) (repos : List RawRepo)
    (h : raw.blog = some "") : (get_github_profile raw repos).blog = none := by
  simp [get_github_profile, blog_or_none, h]

/-- C4 witness: concrete raw record with `blog = ""`. -/
theorem c4_blog_empty_string_to_none_witness :
    ({ blog := some "" } : RawUser).blog = some "" ∧
    (get_github_profile { blog := some "" } []).blog = none :=
  ⟨rfl, c4_blog_empty_string_to_none { blog := some "" } [] rfl⟩

/-- Membership in the language-derivation fold, for any starting
accumulator. -/
theorem derive_languages_foldl_mem (repos : List RawRepo) (acc : Finset String)
    (x : String) :
    (x ∈ repos.foldl derive_languages_step acc) ↔
      (x ∈ acc ∨ ((∃ r ∈ repos, r.language = some x) ∧ x ≠ "")) := by
  induction repos generalizing acc with
  | nil => simp
  | cons repo rest ih =>
    simp only [List.foldl_cons]
    rcases hrep : repo.language with _ | l
    · have hstep : derive_languages_step acc repo = acc := by
        simp [derive_languages_step, hrep]
      rw [hstep, ih]
      simp [hrep]
    · by_cases hl : l = ""
      · have hstep : derive_languages_step acc repo = acc := by
          simp [derive_languages_step, hrep, hl]
        rw [hstep, ih]
        simp only [List.mem_cons]
        constructor
        · rintro (hx | ⟨⟨r, hr, hrx⟩, hne⟩)
          · exact Or.inl hx
          · exact Or.inr ⟨⟨r, Or.inr hr, hrx⟩, hne⟩
        · rintro (hx | ⟨⟨r, hr | hr, hrx⟩, hne⟩)
          · exact Or.inl hx
          · rw [hr, hrep, hl] at hrx
            exact absurd (Option.some_injective _ hrx).symm hne
          · exact Or.inr ⟨⟨r, hr, hrx⟩, hne⟩
      · have hstep : derive_languages_step acc repo = insert l acc := by
          simp [derive_languages_step, hrep, hl]
        rw [hstep, ih]
        simp only [List.mem_cons, Finset.mem_insert]
        constructor
        · rintro ((hx | hx) | ⟨⟨r, hr, hrx⟩, hne⟩)
          · exact Or.inr ⟨⟨repo, Or.inl rfl, by rw [hrep, hx]⟩, hx ▸ hl⟩
          · exact Or.inl hx
          · exact Or.inr ⟨⟨r, Or.inr hr, hrx⟩, hne⟩
        · rintro (hx | ⟨⟨r, hr | hr, hrx⟩, hne⟩)
          · exact Or.inl (Or.inr hx)
          · rw [hr, hrep] at hrx
            exact Or.inl (Or.inl (Option.some_injective _ hrx).symm)
          · exact Or.inr ⟨⟨r, hr, hrx⟩, hne⟩

/-- C5 counterexample: the claim says the derived languages collection
contains exactly the distinct *non-null* primary languages.  For a repo
list whose one repository has the non-null primary language `""`, the
non-null languages are exactly `[""]`, yet the Python truthiness guard
`if repo['language']:` also skips the empty string, so the derived set
does not contain it. -/
theorem c5_derive_languages_counterexample :
    [({ language := some "" } : RawRepo)].filterMap RawRepo.language = [""] ∧
    "" ∉ derive_languages [({ language := some "" } : RawRepo)] := by
  refine ⟨rfl, ?_⟩
  decide

/-- C5 amended: the derived languages collection contains exactly the
distinct non-null *and non-empty* primary languages of the repositories
(duplicates removed, nulls and empty strings skipped); repos with
languages `["Go", null, "Go", "Rust"]` yield the set `{"Go", "Rust"}`. -/
theorem c5_derive_languages_distinct_nonnull_nonempty :
    (∀ (repos : List RawRepo) (x : String),
        x ∈ derive_languages repos ↔
          ((∃ r ∈ repos, r.language = some x) ∧ x ≠ "")) ∧
    derive_languages [⟨some "Go"⟩, ⟨none⟩, ⟨some "Go"⟩, ⟨some "Rust"⟩] =
      {"Go", "Rust"} := by
  refine ⟨?_, by decide⟩
  intro repos x
  rw [derive_languages, derive_languages_foldl_mem]
  simp

/-- C7: initializing the store twice against the same backing location
never errors and never duplicates the table: a second
`init_database_if_needed` is a no-op because the backing file now
exists, and the emitted DDL itself uses create-if-not-exists semantics,
so even re-running `init_database` against an initialized database
succeeds and leaves exactly one `github_profiles` table. -/
theorem c7_init_database_if_needed_idempotent :
    (∀ (s s' : StoreState), init_database_if_needed s = .ok s' →
        init_database_if_needed s' = .ok s') ∧
    (∃ objs, init_database [] = .ok objs ∧ init_database objs = .ok objs ∧
        objs.count "github_profiles" = 1) := by
  constructor
  · intro s s' h
    rw [init_database_if_needed] at h
    by_cases hf : s.fileExists
    · rw [if_pos hf] at h
      cases h
      rw [init_database_if_needed, if_pos hf]
    · rw [if_neg hf] at h
      rcases hobjs : init_database s.objects with e | objs
      · rw [hobjs] at h
        cases h
      · rw [hobjs] at h
        cases h
        rfl
  · exact ⟨["github_profiles_id_seq", "github_profiles"], rfl, rfl, by decide⟩

/-- C7 witness: from a fresh location (no backing file, no objects), the
first initialization succeeds, and the theorem applied to it shows the
second call returns the same state unchanged. -/
theorem c7_init_database_if_needed_idempotent_witness :
    init_database_if_needed
        ⟨true, ["github_profiles_id_seq", "github_profiles"]⟩ =
      .ok ⟨true, ["github_profiles_id_seq", "github_profiles"]⟩ :=
  c7_init_database_if_needed_idempotent.1 ⟨false, []⟩
    ⟨true, ["github_profiles_id_seq", "github_profiles"]⟩ rfl

/-- Splitting on a separator that does not occur yields the single piece. -/
theorem splitOnChar_no_sep (sep : Char) (l : List Char) (h : sep ∉ l) :
    splitOnChar sep l = [l] := by
  induction l with
  | nil => rfl
  | cons c t ih =>
    have hc : c ≠ sep := fun hcs => h (hcs ▸ List.mem_cons_self c t)
    have ht : sep ∉ t := fun hts => h (List.mem_cons_of_mem c hts)
    rw [splitOnChar]
    simp only [if_neg hc, ih ht]

/-- Splitting a list with exactly one separator occurrence yields the two
pieces around it. -/
theorem splitOnChar_single_sep (sep : Char) (a b : List Char)
    (ha : sep ∉ a) (hb : sep ∉ b) :
    splitOnChar sep (a ++ sep :: b) = [a, b] := by
  induction a with
  | nil =>
    simp only [List.nil_append]
    rw [splitOnChar, if_pos rfl, splitOnChar_no_sep sep b hb]
  | cons c t ih =>
    have hc : c ≠ sep := fun hcs => ha (hcs ▸ List.mem_cons_self c t)
    have ht : sep ∉ t := fun hts => ha (List.mem_cons_of_mem c hts)
    simp only [List.cons_append]
    rw [splitOnChar, if_neg hc, ih ht]

/-- C6: `read_repos_file` ignores blank lines and lines starting with
`#`; a retained line consisting of two `/`-free pieces around a single
`/` contributes exactly the `(org, repo)` pair; a retained line lacking
the `/` separator makes the whole read fail (the unpacking of
`line.split('/')` raises). -/
theorem c6_read_repos_file_spec :
    (∀ (line : String) (rest : List String),
        lineSkipped (trimChars line.data) = true →
        read_repos_file (line :: rest) = read_repos_file rest) ∧
    (∀ (line : String) (rest : List String) (org repo : List Char),
        trimChars line.data = org ++ '/' :: repo → '/' ∉ org → '/' ∉ repo →
        lineSkipped (trimChars line.data) = false →
        read_repos_file (line :: rest) =
          (read_repos_file rest).map
            (fun pairs => (String.mk org, String.mk repo) :: pairs)) ∧
    (∀ (line : String) (rest : List String),
        lineSkipped (trimChars line.data) = false →
        '/' ∉ trimChars line.data →
        read_repos_file (line :: rest) =
          .error (String.mk (trimChars line.data))) := by
  refine ⟨?_, ?_, ?_⟩
  · intro line rest h
    simp only [read_repos_file, h, if_true]
  · intro line rest org repo hsplit ha hb hskip
    simp only [read_repos_file, hskip, Bool.false_eq_true, if_false]
    rw [hsplit, splitOnChar_single_sep '/' org repo ha hb]
  · intro line rest hskip hsep
    simp only [read_repos_file, hskip, Bool.false_eq_true, if_false]
    rw [splitOnChar_no_sep '/' _ hsep]

/-- C6 witness: a comment line is skipped, `" modal-labs/modal-client "`
parses to the pair, and a line without `/` is a fatal error. -/
theorem c6_read_repos_file_spec_witness :
    (read_repos_file ["# note", "a/b"] = read_repos_file ["a/b"]) ∧
    (read_repos_file [" modal-labs/modal-client "] =
      (read_repos_file []).map
        (fun pairs => ("modal-labs", "modal-client") :: pairs)) ∧
    (read_repos_file ["badline"] = .error "badline") :=
  ⟨c6_read_repos_file_spec.1 "# note" ["a/b"] (by decide),
   c6_read_repos_file_spec.2.1 " modal-labs/modal-client " []
     "modal-labs".data "modal-client".data (by decide) (by decide) (by decide)
     (by decide),
   c6_read_repos_file_spec.2.2 "badline" [] (by decide) (by decide)⟩

/-- The persist loop for an arbitrary starting counter value. -/
theorem save_batch_foldl (profiles : List (Option Profile)) (st : TableState)
    (c : Nat) (now : Nat) :
    (profiles.foldl (fun acc profile =>
        match profile with
        | some p => (save_profile_to_db acc.1 p now, acc.2 + 1)
        | none => acc) (st, c)).2 = c + (profiles.filterMap id).length ∧
    (profiles.foldl (fun acc profile =>
        match profile with
        | some p => (save_profile_to_db acc.1 p now, acc.2 + 1)
        | none => acc) (st, c)).1.rows.map TableRow.data =
      st.rows.map TableRow.data ++ profiles.filterMap id := by
  induction profiles generalizing st c with
  | nil => simp
  | cons profile rest ih =>
    rcases profile with _ | p
    · simpa using ih st c
    · have hfm : List.filterMap id (some p :: rest) = p :: List.filterMap id rest := rfl
      simp only [List.foldl_cons, hfm]
      rcases ih (save_profile_to_db st p now) (c + 1) with ⟨h1, h2⟩
      refine ⟨by rw [h1]; simp; omega, ?_⟩
      rw [h2]
      simp [save_profile_to_db, insert_into_github_profiles]

/-- C8: in a batch of profile fetches where some units failed (result
`None`), every successfully fetched profile is still inserted and the
loop completes, reporting a saved count equal to the number of
successful fetches; in particular a 3-element batch with one `None`
saves the other 2 profiles and reports 2 of 3. -/
theorem c8_save_batch_isolation :
    (∀ (profiles : List (Option Profile)) (st : TableState) (now : Nat),
        (save_batch profiles st now).2 = (profiles.filterMap id).length ∧
        (save_batch profiles st now).1.rows.map TableRow.data =
          st.rows.map TableRow.data ++ profiles.filterMap id) ∧
    (∀ (p1 p2 : Profile) (st : TableState) (now : Nat),
        ([some p1, none, some p2] : List (Option Profile)).length = 3 ∧
        (save_batch [some p1, none, some p2] st now).2 = 2 ∧
        p1 ∈ (save_batch [some p1, none, some p2] st now).1.rows.map TableRow.data ∧
        p2 ∈ (save_batch [some p1, none, some p2] st now).1.rows.map TableRow.data) := by
  have hgen : ∀ (profiles : List (Option Profile)) (st : TableState) (now : Nat),
      (save_batch profiles st now).2 = (profiles.filterMap id).length ∧
      (save_batch profiles st now).1.rows.map TableRow.data =
        st.rows.map TableRow.data ++ profiles.filterMap id := by
    intro profiles st now
    have := save_batch_foldl profiles st 0 now
    simpa [save_batch] using this
  refine ⟨hgen, ?_⟩
  intro p1 p2 st now
  rcases hgen [some p1, none, some p2] st now with ⟨h1, h2⟩
  refine ⟨rfl, by simpa using h1, ?_, ?_⟩
  · rw [h2]; simp
  · rw [h2]; simp

/-- The id column values of a table are store-assigned, non-null and
strictly increasing, all below the sequence's next value. -/
def rowIdsWellFormed (rows : List TableRow) (nextId : Nat) : Prop :=
  (∀ r ∈ rows, ∃ k, r.id = some k ∧ k < nextId) ∧
  rows.Pairwise (fun a b => ∀ i j, a.id = some i → b.id = some j → i < j)

/-- C9: the INSERT of `save_profile_to_db` names neither `id` nor
`fetched_at`, so the schema defaults fire: the inserted row carries the
non-null store-assigned id `next_id` (the sequence value, which then
advances) and the non-null insert-time timestamp, and the ids across the
table remain strictly increasing. -/
theorem c9_save_profile_to_db_defaults :
    ("id" ∉ insert_fields ∧ "fetched_at" ∉ insert_fields) ∧
    (∀ (st : TableState) (p : Profile) (now : Nat),
        (save_profile_to_db st p now).rows =
          st.rows ++ [⟨some st.next_id, some now, p⟩] ∧
        (save_profile_to_db st p now).next_id = st.next_id + 1 ∧
        (rowIdsWellFormed st.rows st.next_id →
          rowIdsWellFormed (save_profile_to_db st p now).rows
            (save_profile_to_db st p now).next_id)) := by
  have hid : "id" ∉ insert_fields := by decide
  have hfa : "fetched_at" ∉ insert_fields := by decide
  refine ⟨⟨hid, hfa⟩, ?_⟩
  intro st p now
  have hrows : (save_profile_to_db st p now).rows =
      st.rows ++ [⟨some st.next_id, some now, p⟩] := by
    simp [save_profile_to_db, insert_into_github_profiles, hid, hfa]
  have hnext : (save_profile_to_db st p now).next_id = st.next_id + 1 := by
    simp [save_profile_to_db, insert_into_github_profiles, hid]
  refine ⟨hrows, hnext, ?_⟩
  rintro ⟨hbound, hmono⟩
  rw [hrows, hnext]
  constructor
  · intro r hr
    rcases List.mem_append.mp hr with hr | hr
    · rcases hbound r hr with ⟨k, hk, hlt⟩
      exact ⟨k, hk, Nat.lt_succ_of_lt hlt⟩
    · rcases List.mem_singleton.mp hr with rfl
      exact ⟨st.next_id, rfl, Nat.lt_succ_self _⟩
  · rw [List.pairwise_append]
    refine ⟨hmono, List.pairwise_singleton _ _, ?_⟩
    intro a ha b hb i j hi hj
    rcases List.mem_singleton.mp hb with rfl
    rcases hbound a ha with ⟨k, hk, hlt⟩
    rw [hi] at hk
    cases Option.some_injective _ hk
    cases Option.some_injective _ hj.symm
    exact hlt

/-- C9 witness: inserting a profile into a fresh table with sequence
value 1 yields the single row with id 1 and the supplied insert-time
timestamp. -/
theorem c9_save_profile_to_db_defaults_witness :
    (save_profile_to_db ⟨1, []⟩ { login := "octocat" } 42).rows =
      [⟨some 1, some 42, { login := "octocat" }⟩] ∧
    rowIdsWellFormed (save_profile_to_db ⟨1, []⟩ { login := "octocat" } 42).rows
      (save_profile_to_db ⟨1, []⟩ { login := "octocat" } 42).next_id := by
  rcases c9_save_profile_to_db_defaults.2 ⟨1, []⟩ { login := "octocat" } 42 with
    ⟨h1, _, h3⟩
  exact ⟨by simpa using h1, h3 ⟨by simp, List.Pairwise.nil⟩⟩

/-! ### LIKE-pattern lemmas -/

/-- A pattern starting with `%` matches a subject iff the rest of the
pattern matches some suffix of the subject. -/
theorem likeMatch_percent_cons (ps : List Char) (s : List Char) :
    likeMatch ('%' :: ps) s = true ↔ ∃ t, t <:+ s ∧ likeMatch ps t = true := by
  have hunfold : likeMatch ('%' :: ps) s = s.tails.any (fun t => likeMatch ps t) := rfl
  rw [hunfold, List.any_eq_true]
  constructor
  · rintro ⟨t, ht, hm⟩
    exact ⟨t, (List.mem_tails _ _).mp ht, hm⟩
  · rintro ⟨t, ht, hm⟩
    exact ⟨t, (List.mem_tails _ _).mpr ht, hm⟩

/-- The pattern `%` alone matches every subject. -/
theorem likeMatch_single_percent (s : List Char) : likeMatch ['%'] s = true :=
  (likeMatch_percent_cons [] s).mpr ⟨[], List.nil_suffix, rfl⟩

/-- The pattern `%%%` matches every subject. -/
theorem likeMatch_three_percent (s : List Char) :
    likeMatch ['%', '%', '%'] s = true :=
  (likeMatch_percent_cons ['%', '%'] s).mpr
    ⟨s, List.suffix_refl s,
      (likeMatch_percent_cons ['%'] s).mpr
        ⟨s, List.suffix_refl s, likeMatch_single_percent s⟩⟩

/-- A list of pattern characters free of the LIKE wildcards `%` and `_`. -/
abbrev noWildChars (cs : List Char) : Prop := ∀ c ∈ cs, c ≠ '%' ∧ c ≠ '_'

/-- A wildcard-free literal pattern followed by `%` matches a subject iff
the literal is, case-insensitively, a prefix of the subject. -/
theorem likeMatch_literal_percent (cs : List Char) (h : noWildChars cs)
    (s : List Char) :
    likeMatch (cs ++ ['%']) s = true ↔
      cs.map Char.toLower <+: s.map Char.toLower := by
  induction cs generalizing s with
  | nil => simpa using likeMatch_single_percent s
  | cons c ct ih =>
    have hc := h c (List.mem_cons_self c ct)
    have hct : noWildChars ct := fun d hd => h d (List.mem_cons_of_mem c hd)
    cases s with
    | nil =>
      rw [List.cons_append, likeMatch.eq_def]
      simp only [if_neg hc.1]
      simp [List.prefix_nil]
    | cons d t =>
      rw [List.cons_append, likeMatch.eq_def]
      simp only [if_neg hc.1, if_neg hc.2]
      rw [Bool.and_eq_true, ih hct t]
      simp only [List.map_cons, List.cons_prefix_cons, beq_iff_eq]

/-- A `%`-wrapped wildcard-free term matches a subject iff the lowered
term is an infix of the lowered subject. -/
theorem likeMatch_contains_iff (term : List Char) (h : noWildChars term)
    (s : List Char) :
    likeMatch ('%' :: (term ++ ['%'])) s = true ↔
      term.map Char.toLower <:+: s.map Char.toLower := by
  rw [likeMatch_percent_cons]
  constructor
  · rintro ⟨t, hts, hm⟩
    have hpre := (likeMatch_literal_percent term h t).mp hm
    exact List.infix_iff_prefix_suffix.mpr
      ⟨t.map Char.toLower, hpre, List.IsSuffix.map _ hts⟩
  · intro hinf
    rcases List.infix_iff_prefix_suffix.mp hinf with ⟨t, hpre, u, hu⟩
    refine ⟨s.drop u.length, List.drop_suffix _ _, ?_⟩
    rw [likeMatch_literal_percent term h]
    have ht : (s.drop u.length).map Char.toLower = t := by
      rw [List.map_drop, ← hu, List.drop_left]
    rw [ht]
    exact hpre

/-! ### Search-query lemmas and the claims about `find_by_location` -/

/-- Membership in `find_by_location`: the filter's predicate, with the
sort forgotten. -/
theorem mem_find_by_location (st : TableState) (term : String) (r : TableRow) :
    r ∈ find_by_location st term ↔
      r ∈ st.rows ∧ locationMatches term r = true := by
  rw [find_by_location, List.mem_mergeSort, List.mem_filter]

/-- `find_by_location` output is ordered by followers descending. -/
theorem find_by_location_sorted (st : TableState) (term : String) :
    (find_by_location st term).Pairwise
      (fun a b => b.data.followers ≤ a.data.followers) := by
  refine List.Pairwise.imp (fun h => of_decide_eq_true h)
    (List.sorted_mergeSort ?_ ?_ (st.rows.filter (locationMatches term)))
  · intro a b c hab hbc
    simp only [decide_eq_true_eq] at *
    omega
  · intro a b
    simp only [Bool.or_eq_true, decide_eq_true_eq]
    omega

/-- The pattern `find_by_location` passes to ILIKE, as characters. -/
theorem location_pattern_data (term : String) :
    ("%" ++ term ++ "%").data = '%' :: (term.data ++ ['%']) := by
  simp [String.data_append]

/-- A search term free of the SQL LIKE wildcards `%` and `_`. -/
abbrev noWild (term : String) : Prop := ∀ c ∈ term.data, c ≠ '%' ∧ c ≠ '_'

/-- C3 amended: for every search term containing no LIKE wildcard (`%`
or `_`), `find_by_location` returns a row iff its location is non-null
and case-insensitively contains the term as a substring, the output is
ordered by followers descending, and null-location rows are never
returned. -/
theorem c3_find_by_location_substring (st : TableState) (term : String)
    (h : noWild term) :
    (∀ r : TableRow, r ∈ find_by_location st term ↔
        (r ∈ st.rows ∧ ∃ loc, r.data.location = some loc ∧
          term.data.map Char.toLower <:+: loc.data.map Char.toLower)) ∧
    (find_by_location st term).Pairwise
      (fun a b => b.data.followers ≤ a.data.followers) ∧
    (∀ r ∈ find_by_location st term, r.data.location ≠ none) := by
  have hmem : ∀ r : TableRow, r ∈ find_by_location st term ↔
      (r ∈ st.rows ∧ ∃ loc, r.data.location = some loc ∧
        term.data.map Char.toLower <:+: loc.data.map Char.toLower) := by
    intro r
    rw [mem_find_by_location]
    refine and_congr_right (fun _ => ?_)
    rcases hloc : r.data.location with _ | loc
    · rw [locationMatches, hloc]
      simp
    · rw [locationMatches, hloc]
      simp only [sql_ilike]
      rw [location_pattern_data, likeMatch_contains_iff term.data h]
      simp
  refine ⟨hmem, find_by_location_sorted st term, ?_⟩
  intro r hr
  rcases (hmem r).mp hr with ⟨_, loc, hloc, _⟩
  rw [hloc]
  exact fun hcon => Option.noConfusion hcon

/-- Row with location `"San Francisco, CA"` used to witness C3. -/
def sfRow : TableRow where
  id := some 1
  fetched_at := some 0
  data := { login := "sf", location := some "San Francisco, CA", followers := 10 }

/-- Row with a null location used to witness C3. -/
def nullLocRow : TableRow where
  id := some 2
  fetched_at := some 0
  data := { login := "nl", location := none, followers := 99 }

/-- C3 witness: the term `"ca"` matches `"San Francisco, CA"`
case-insensitively, and the null-location row is not returned. -/
theorem c3_find_by_location_substring_witness :
    sfRow ∈ find_by_location ⟨3, [sfRow, nullLocRow]⟩ "ca" ∧
    nullLocRow ∉ find_by_location ⟨3, [sfRow, nullLocRow]⟩ "ca" := by
  have h := c3_find_by_location_substring ⟨3, [sfRow, nullLocRow]⟩ "ca" (by decide)
  constructor
  · exact (h.1 sfRow).mpr ⟨by decide, "San Francisco, CA", rfl, by decide⟩
  · intro hmem
    rcases (h.1 nullLocRow).mp hmem with ⟨_, loc, hloc, _⟩
    exact Option.noConfusion hloc

/-- Row with location `"Paris"` used in the C3 counterexample. -/
def parisRow : TableRow where
  id := some 1
  fetched_at := some 0
  data := { login := "pp", location := some "Paris", followers := 5 }

/-- C3 counterexample: for the search term `"%"`, the claim as stated
fails — the row with location `"Paris"` is returned although `"Paris"`
does not contain `"%"` as a substring (case-insensitively or
otherwise): the `%` is interpreted as a LIKE wildcard. -/
theorem c3_find_by_location_counterexample :
    parisRow ∈ find_by_location ⟨2, [parisRow]⟩ "%" ∧
    ¬ ("%".data.map Char.toLower <:+:
        "Paris".data.map Char.toLower) := by
  constructor
  · rw [mem_find_by_location]
    exact ⟨by decide, by decide⟩
  · decide

/-- C10: for the search term `"%"` — a LIKE wildcard, not a literal —
`find_by_location` returns exactly the rows whose location is non-null,
whether or not the location contains a percent sign. -/
theorem c10_find_by_location_percent_wildcard (st : TableState) (r : TableRow) :
    r ∈ find_by_location st "%" ↔ (r ∈ st.rows ∧ r.data.location ≠ none) := by
  rw [mem_find_by_location]
  refine and_congr_right (fun _ => ?_)
  rcases hloc : r.data.location with _ | loc
  · rw [locationMatches, hloc]
    simp
  · rw [locationMatches, hloc]
    simp only [sql_ilike]
    constructor
    · intro _
      exact fun hcon => Option.noConfusion hcon
    · intro _
      have hpat : ("%" ++ "%" ++ "%" : String).data = ['%', '%', '%'] := rfl
      rw [hpat]
      exact likeMatch_three_percent loc.data

end Centipede
